import Mathlib

/-!
Verification of the pure data-transform layer of the SCC-WEB project
dashboard (src/website.py) and of its HTTP relay (src/heater_backend.py).

The Python functions are shallowly embedded: strings are `String`, Python
floats appearing in the percent logic are `ℚ` (the operations used on them
are comparisons and clamping, which are exact), database rows are
structures, tables are lists or id-indexed maps, and the stateful SQL
statements become pure state transformers on a `DBState`.  `float(value)`
conversion outcomes are passed in as `Option ℚ` arguments.  Python string
helpers (`str.strip`, `str.lower`) are re-implemented over the character
list so that every definition evaluates inside the kernel.
-/

/-- Python `str.lower()` (ASCII case mapping, as used on the ASCII literals
compared against in website.py). -/
def pyLower (s : String) : String := ⟨s.data.map Char.toLower⟩

/-- Python `str.strip()`: whitespace removed from both ends. -/
def pyStrip (s : String) : String :=
  ⟨((s.data.dropWhile Char.isWhitespace).reverse.dropWhile Char.isWhitespace).reverse⟩

/-- Python `str.startswith`. -/
def pyStartsWith (s pre : String) : Bool := pre.data.isPrefixOf s.data

/-- website.py `parse_percent`: `float(value)` — `None` on `TypeError` /
`ValueError`, the conversion outcome is the `Option ℚ` argument — then
`max(0.0, min(100.0, percent))`. -/
def parse_percent (value : Option ℚ) : Option ℚ :=
  match value with
  | none => none
  | some percent => some (max 0 (min 100 percent))

/-- website.py `PHASES`. -/
def PHASES : List String := ["Concept", "Developing", "Prototype", "Testing", "Complete"]

/-- website.py `PHASE_TO_PERCENT` as an association list in the dict's
insertion order (Python dicts iterate in insertion order). -/
def PHASE_TO_PERCENT : List (String × ℚ) :=
  [("Concept", 0), ("Developing", 25), ("Prototype", 50), ("Testing", 75), ("Complete", 100)]

/-- Python `min(iterable, key=key)`: the first element with minimal key (a
later element replaces the current best only when its key is strictly
smaller); `none` on an empty iterable (Python raises `ValueError`). -/
def pyMinBy {α : Type} (key : α → ℚ) : List α → Option α
  | [] => none
  | a :: l => some (l.foldl (fun best x => if key x < key best then x else best) a)

/-- website.py `phase_from_percent`:
`min(PHASE_TO_PERCENT.items(), key=lambda item: abs(percent - item[1]))[0]`,
or `""` for a `None` percent. -/
def phase_from_percent (percent : Option ℚ) : String :=
  match percent with
  | none => ""
  | some q =>
    match pyMinBy (fun item => |q - item.2|) PHASE_TO_PERCENT with
    | some nearest => nearest.1
    | none => ""

/-- The foldl inside `pyMinBy` returns the accumulator or a list element. -/
theorem pyMinBy_foldl_mem {α : Type} (key : α → ℚ) (l : List α) (a : α) :
    l.foldl (fun best x => if key x < key best then x else best) a = a
      ∨ l.foldl (fun best x => if key x < key best then x else best) a ∈ l := by
  induction l generalizing a with
  | nil => left; rfl
  | cons x xs ih =>
    simp only [List.foldl_cons]
    rcases ih (if key x < key a then x else a) with h | h
    · by_cases hx : key x < key a
      · right; rw [h]; simp [hx]
      · left; rw [h]; simp [hx]
    · right; exact List.mem_cons_of_mem _ h

/-- The foldl inside `pyMinBy` computes a minimal key. -/
theorem pyMinBy_foldl_min {α : Type} (key : α → ℚ) (l : List α) (a : α) :
    key (l.foldl (fun best x => if key x < key best then x else best) a) ≤ key a
      ∧ ∀ x ∈ l, key (l.foldl (fun best x => if key x < key best then x else best) a) ≤ key x := by
  induction l generalizing a with
  | nil => exact ⟨le_refl _, by simp⟩
  | cons x xs ih =>
    simp only [List.foldl_cons]
    obtain ⟨h1, h2⟩ := ih (if key x < key a then x else a)
    by_cases hx : key x < key a
    · refine ⟨le_trans h1 (by simp [hx]; exact le_of_lt hx), ?_⟩
      intro y hy
      rcases List.mem_cons.mp hy with rfl | hy
      · exact le_trans h1 (by simp [hx])
      · exact h2 y hy
    · refine ⟨le_trans h1 (by simp [hx]), ?_⟩
      intro y hy
      rcases List.mem_cons.mp hy with rfl | hy
      · exact le_trans h1 (by simp [hx]; exact le_of_not_lt hx)
      · exact h2 y hy

theorem pyMinBy_mem {α : Type} (key : α → ℚ) (l : List α) (r : α)
    (h : pyMinBy key l = some r) : r ∈ l := by
  cases l with
  | nil => simp [pyMinBy] at h
  | cons a xs =>
    simp only [pyMinBy, Option.some.injEq] at h
    rcases pyMinBy_foldl_mem key xs a with h' | h'
    · rw [← h, h']; exact List.mem_cons_self a xs
    · rw [← h]; exact List.mem_cons_of_mem _ h'

theorem pyMinBy_min {α : Type} (key : α → ℚ) (l : List α) (r : α)
    (h : pyMinBy key l = some r) : ∀ x ∈ l, key r ≤ key x := by
  cases l with
  | nil => simp [pyMinBy] at h
  | cons a xs =>
    simp only [pyMinBy, Option.some.injEq] at h
    obtain ⟨h1, h2⟩ := pyMinBy_foldl_min key xs a
    intro x hx
    rcases List.mem_cons.mp hx with rfl | hx
    · rw [← h]; exact h1
    · rw [← h]; exact h2 x hx

/-- Claim C1: `parse_percent` returns `None` exactly when the value does not
convert to a float, and otherwise a float clamped into [0, 100]: values below
0 become 0.0, values above 100 become 100.0, and values already inside the
interval are returned unchanged. -/
theorem claim_C1 :
    parse_percent none = none
  ∧ (∀ q : ℚ, ∃ r : ℚ, parse_percent (some q) = some r
      ∧ 0 ≤ r ∧ r ≤ 100
      ∧ (q < 0 → r = 0)
      ∧ (100 < q → r = 100)
      ∧ (0 ≤ q → q ≤ 100 → r = q)) := by
  refine ⟨rfl, fun q => ⟨max 0 (min 100 q), rfl, le_max_left 0 _, ?_, ?_, ?_, ?_⟩⟩
  · exact max_le (by norm_num) (min_le_left 100 q)
  · intro hq
    rw [min_eq_right (le_of_lt (lt_of_lt_of_le hq (by norm_num)))]
    exact max_eq_left (le_of_lt hq)
  · intro hq
    rw [min_eq_left (le_of_lt hq)]
    exact max_eq_right (by norm_num)
  · intro h0 h100
    rw [min_eq_right h100]
    exact max_eq_right h0

/-- Claim C2: the five phases map to the percents 0, 25, 50, 75, 100; for a
`None` percent `phase_from_percent` returns `""`, and for every other percent
it returns a phase label whose mapped percent minimizes the absolute
difference to the input; the result is always one of the five labels or `""`. -/
theorem claim_C2 :
    List.lookup "Concept" PHASE_TO_PERCENT = some 0
  ∧ List.lookup "Developing" PHASE_TO_PERCENT = some 25
  ∧ List.lookup "Prototype" PHASE_TO_PERCENT = some 50
  ∧ List.lookup "Testing" PHASE_TO_PERCENT = some 75
  ∧ List.lookup "Complete" PHASE_TO_PERCENT = some 100
  ∧ phase_from_percent none = ""
  ∧ (∀ q : ℚ, ∃ rv : ℚ,
        (phase_from_percent (some q), rv) ∈ PHASE_TO_PERCENT
      ∧ ∀ p ∈ PHASE_TO_PERCENT, |q - rv| ≤ |q - p.2|)
  ∧ (∀ v : Option ℚ, phase_from_percent v ∈ PHASES ∨ phase_from_percent v = "") := by
  have hmap : PHASE_TO_PERCENT.map Prod.fst = PHASES := rfl
  have key : ∀ q : ℚ, ∃ rv : ℚ,
      (phase_from_percent (some q), rv) ∈ PHASE_TO_PERCENT
    ∧ ∀ p ∈ PHASE_TO_PERCENT, |q - rv| ≤ |q - p.2| := by
    intro q
    have hne : pyMinBy (fun item => |q - item.2|) PHASE_TO_PERCENT ≠ none := by
      simp [pyMinBy, PHASE_TO_PERCENT]
    obtain ⟨r, hr⟩ := Option.ne_none_iff_exists'.mp hne
    have hmem := pyMinBy_mem _ _ _ hr
    have hmin := pyMinBy_min _ _ _ hr
    refine ⟨r.2, ?_, ?_⟩
    · have : phase_from_percent (some q) = r.1 := by
        simp [phase_from_percent, hr]
      rw [this]
      exact hmem
    · intro p hp
      exact hmin p hp
  refine ⟨rfl, rfl, rfl, rfl, rfl, rfl, key, ?_⟩
  intro v
  match v with
  | none => right; rfl
  | some q =>
    left
    obtain ⟨rv, hrv, _⟩ := key q
    rw [← hmap]
    exact List.mem_map.mpr ⟨(phase_from_percent (some q), rv), hrv, rfl⟩

/-- Numeric value of a decimal digit character. -/
def digitVal (c : Char) : ℕ := c.toNat - 48

/-- The `%Y` field of CPython strptime: exactly four decimal digits. A parse
alternative is (value, remaining input); the list holds the regex
alternatives in priority order. -/
def yearAlts (cs : List Char) : List (ℕ × List Char) :=
  match cs with
  | a :: b :: c :: d :: rest =>
    if a.isDigit && b.isDigit && c.isDigit && d.isDigit then
      [(1000 * digitVal a + 100 * digitVal b + 10 * digitVal c + digitVal d, rest)]
    else []
  | _ => []

/-- The `%m` field of CPython strptime: regex `1[0-2]|0[1-9]|[1-9]`,
alternatives in priority order. -/
def monthAlts (cs : List Char) : List (ℕ × List Char) :=
  (match cs with
   | '1' :: d :: rest =>
     if d = '0' || d = '1' || d = '2' then [(10 + digitVal d, rest)] else []
   | _ => []) ++
  (match cs with
   | '0' :: d :: rest =>
     if d.isDigit && d ≠ '0' then [(digitVal d, rest)] else []
   | _ => []) ++
  (match cs with
   | c :: rest => if c.isDigit && c ≠ '0' then [(digitVal c, rest)] else []
   | _ => [])

/-- The `%d` field of CPython strptime: regex `3[01]|[12]\d|0[1-9]|[1-9]| [1-9]`,
alternatives in priority order. -/
def dayAlts (cs : List Char) : List (ℕ × List Char) :=
  (match cs with
   | '3' :: d :: rest => if d = '0' || d = '1' then [(30 + digitVal d, rest)] else []
   | _ => []) ++
  (match cs with
   | c :: d :: rest =>
     if (c = '1' || c = '2') && d.isDigit then [(10 * digitVal c + digitVal d, rest)] else []
   | _ => []) ++
  (match cs with
   | '0' :: d :: rest => if d.isDigit && d ≠ '0' then [(digitVal d, rest)] else []
   | _ => []) ++
  (match cs with
   | c :: rest => if c.isDigit && c ≠ '0' then [(digitVal c, rest)] else []
   | _ => []) ++
  (match cs with
   | ' ' :: d :: rest => if d.isDigit && d ≠ '0' then [(digitVal d, rest)] else []
   | _ => [])

/-- A literal character of the format string. -/
def litAlts (ch : Char) (cs : List Char) : List (Unit × List Char) :=
  match cs with
  | c :: rest => if c = ch then [((), rest)] else []
  | _ => []

/-- Backtracking over regex alternatives: the first alternative under which
the continuation succeeds. -/
def firstParse {α β : Type} (alts : List (α × List Char)) (k : α → List Char → Option β) :
    Option β :=
  match alts with
  | [] => none
  | (a, rest) :: tl =>
    match k a rest with
    | some b => some b
    | none => firstParse tl k

/-- Gregorian leap year, as in Python's datetime module. -/
def isLeap (y : ℕ) : Bool := y % 4 = 0 && (y % 100 ≠ 0 || y % 400 = 0)

/-- Days in each month of a non-leap year. -/
def MONTH_DAYS : List ℕ := [31, 28, 31, 30, 31, 30, 31, 31, 30, 31, 30, 31]

def daysInMonth (y m : ℕ) : ℕ :=
  if m = 2 && isLeap y then 29 else MONTH_DAYS.getD (m - 1) 0

structure Ymd where
  year : ℕ
  month : ℕ
  day : ℕ
deriving DecidableEq, Repr

/-- The `datetime()` constructor's validation: MINYEAR (1) ≤ year ≤ MAXYEAR
(9999), 1 ≤ month ≤ 12, 1 ≤ day ≤ days in month; `ValueError` (here `none`)
otherwise. -/
def mkValidDate (y m d : ℕ) : Option Ymd :=
  if 1 ≤ y ∧ y ≤ 9999 ∧ 1 ≤ m ∧ m ≤ 12 ∧ 1 ≤ d ∧ d ≤ daysInMonth y m then
    some ⟨y, m, d⟩
  else none

/-- `strptime(text, "%Y<sep>%m<sep>%d")`: the regex must consume the whole
string, then the datetime constructor validates the fields. -/
def parseYmdFmt (sep : Char) (cs : List Char) : Option Ymd :=
  firstParse (yearAlts cs) fun y cs1 =>
  firstParse (litAlts sep cs1) fun _ cs2 =>
  firstParse (monthAlts cs2) fun m cs3 =>
  firstParse (litAlts sep cs3) fun _ cs4 =>
  firstParse (dayAlts cs4) fun d cs5 =>
  if cs5 = [] then mkValidDate y m d else none

/-- `strptime(text, "%m/%d/%Y")`. -/
def parseMdyFmt (cs : List Char) : Option Ymd :=
  firstParse (monthAlts cs) fun m cs1 =>
  firstParse (litAlts '/' cs1) fun _ cs2 =>
  firstParse (dayAlts cs2) fun d cs3 =>
  firstParse (litAlts '/' cs3) fun _ cs4 =>
  firstParse (yearAlts cs4) fun y cs5 =>
  if cs5 = [] then mkValidDate y m d else none

/-- website.py `parse_date`: falsy values give `None`; otherwise the stripped
text is tried against the formats `%Y-%m-%d`, `%m/%d/%Y`, `%Y/%m/%d` in that
order. -/
def parse_date (value : String) : Option Ymd :=
  if value = "" then none
  else
    let text := (pyStrip value).data
    match parseYmdFmt '-' text with
    | some d => some d
    | none =>
      match parseMdyFmt text with
      | some d => some d
      | none => parseYmdFmt '/' text

/-- Cumulative days before each month in a non-leap year. -/
def MONTH_OFFSETS : List ℕ := [0, 31, 59, 90, 120, 151, 181, 212, 243, 273, 304, 334]

/-- `datetime._days_before_year`. -/
def daysBeforeYear (y : ℕ) : ℕ :=
  365 * (y - 1) + (y - 1) / 4 - (y - 1) / 100 + (y - 1) / 400

/-- `datetime._days_before_month`. -/
def daysBeforeMonth (y m : ℕ) : ℕ :=
  MONTH_OFFSETS.getD (m - 1) 0 + (if 2 < m && isLeap y then 1 else 0)

/-- `date.toordinal()`: day 1 is 0001-01-01 in the proleptic Gregorian
calendar. -/
def toOrdinal (d : Ymd) : ℕ := daysBeforeYear d.year + daysBeforeMonth d.year d.month + d.day

example : toOrdinal ⟨2024, 1, 1⟩ = 738886 := by decide
example : toOrdinal ⟨9999, 12, 31⟩ = 3652059 := by decide
example : parse_date "2024-01-01" = some ⟨2024, 1, 1⟩ := by decide
example : parse_date "2024-1-1" = some ⟨2024, 1, 1⟩ := by decide
example : parse_date " 12/ 5/2024 " = some ⟨2024, 12, 5⟩ := by decide
example : parse_date "2024/02/30" = none := by decide
example : parse_date "2023-02-29" = none := by decide
example : parse_date "2024-02-29" = some ⟨2024, 2, 29⟩ := by decide
example : parse_date "" = none := by decide
example : parse_date "soon" = none := by decide
example : parse_date "2024-01-311" = none := by decide

/-- A successful `firstParse` comes from one of its alternatives. -/
theorem firstParse_eq_some {α β : Type} (alts : List (α × List Char))
    (k : α → List Char → Option β) (b : β) (h : firstParse alts k = some b) :
    ∃ a rest, (a, rest) ∈ alts ∧ k a rest = some b := by
  induction alts with
  | nil => simp [firstParse] at h
  | cons hd tl ih =>
    obtain ⟨a, rest⟩ := hd
    rw [firstParse] at h
    cases hk : k a rest with
    | some b' =>
      rw [hk] at h
      exact ⟨a, rest, List.mem_cons_self _ _, hk.trans h⟩
    | none =>
      rw [hk] at h
      obtain ⟨a', rest', hmem, hk'⟩ := ih h
      exact ⟨a', rest', List.mem_cons_of_mem _ hmem, hk'⟩

/-- The field bounds the datetime constructor enforces. -/
def dateOK (dt : Ymd) : Prop :=
  1 ≤ dt.year ∧ dt.year ≤ 9999 ∧ 1 ≤ dt.month ∧ dt.month ≤ 12
    ∧ 1 ≤ dt.day ∧ dt.day ≤ daysInMonth dt.year dt.month

theorem mkValidDate_ok (y m d : ℕ) (dt : Ymd) (h : mkValidDate y m d = some dt) :
    dateOK dt := by
  unfold mkValidDate at h
  split at h
  · cases h
    exact ‹_›
  · cases h

theorem parseYmdFmt_ok (sep : Char) (cs : List Char) (dt : Ymd)
    (h : parseYmdFmt sep cs = some dt) : dateOK dt := by
  unfold parseYmdFmt at h
  obtain ⟨y, cs1, -, h⟩ := firstParse_eq_some _ _ _ h
  obtain ⟨-, cs2, -, h⟩ := firstParse_eq_some _ _ _ h
  obtain ⟨m, cs3, -, h⟩ := firstParse_eq_some _ _ _ h
  obtain ⟨-, cs4, -, h⟩ := firstParse_eq_some _ _ _ h
  obtain ⟨d, cs5, -, h⟩ := firstParse_eq_some _ _ _ h
  split at h
  · exact mkValidDate_ok _ _ _ _ h
  · cases h

theorem parseMdyFmt_ok (cs : List Char) (dt : Ymd)
    (h : parseMdyFmt cs = some dt) : dateOK dt := by
  unfold parseMdyFmt at h
  obtain ⟨m, cs1, -, h⟩ := firstParse_eq_some _ _ _ h
  obtain ⟨-, cs2, -, h⟩ := firstParse_eq_some _ _ _ h
  obtain ⟨d, cs3, -, h⟩ := firstParse_eq_some _ _ _ h
  obtain ⟨-, cs4, -, h⟩ := firstParse_eq_some _ _ _ h
  obtain ⟨y, cs5, -, h⟩ := firstParse_eq_some _ _ _ h
  split at h
  · exact mkValidDate_ok _ _ _ _ h
  · cases h

theorem parse_date_ok (s : String) (dt : Ymd) (h : parse_date s = some dt) :
    dateOK dt := by
  unfold parse_date at h
  split at h
  · cases h
  · simp only at h
    cases h1 : parseYmdFmt '-' (pyStrip s).data with
    | some d1 => rw [h1] at h; cases h; exact parseYmdFmt_ok _ _ _ h1
    | none =>
      rw [h1] at h
      cases h2 : parseMdyFmt (pyStrip s).data with
      | some d2 => rw [h2] at h; cases h; exact parseMdyFmt_ok _ _ h2
      | none => rw [h2] at h; exact parseYmdFmt_ok _ _ _ h

theorem daysBeforeYear_le_9999 (y : ℕ) (h : y ≤ 9999) : daysBeforeYear y ≤ 3651694 := by
  unfold daysBeforeYear
  omega

theorem daysBeforeYear_le_9996 (y : ℕ) (h : y ≤ 9996) : daysBeforeYear y ≤ 3650598 := by
  unfold daysBeforeYear
  omega


theorem getD_le_of_all (l : List ℕ) (n b : ℕ) (h : ∀ x ∈ l, x ≤ b) : l.getD n 0 ≤ b := by
  induction l generalizing n with
  | nil => simp [List.getD]
  | cons x xs ih =>
    cases n with
    | zero => simpa using h x (List.mem_cons_self _ _)
    | succ n =>
      simp only [List.getD_cons_succ]
      exact ih n (fun y hy => h y (List.mem_cons_of_mem _ hy))

theorem monthOffset_le (n : ℕ) : MONTH_OFFSETS.getD n 0 ≤ 334 :=
  getD_le_of_all _ _ _ (by decide)

theorem daysInMonth_le (y m : ℕ) : daysInMonth y m ≤ 31 := by
  unfold daysInMonth
  split
  · omega
  · exact getD_le_of_all _ _ _ (by decide)

/-- A date the datetime constructor accepts has ordinal at most that of
9999-12-31 (which is 3652059, the date part of `datetime.max`). -/
theorem toOrdinal_le_max (dt : Ymd) (h : dateOK dt) : toOrdinal dt ≤ 3652059 := by
  obtain ⟨h1, h2, h3, h4, h5, h6⟩ := h
  have hday : dt.day ≤ 31 := le_trans h6 (daysInMonth_le _ _)
  have hoff := monthOffset_le (dt.month - 1)
  unfold toOrdinal daysBeforeMonth
  by_cases hL : isLeap dt.year
  · have h4' : dt.year % 4 = 0 := by
      simp only [isLeap, Bool.and_eq_true, decide_eq_true_eq] at hL
      exact hL.1
    have hy : dt.year ≤ 9996 := by omega
    have hb := daysBeforeYear_le_9996 dt.year hy
    split <;> omega
  · have hb := daysBeforeYear_le_9999 dt.year h2
    have hfeb : dt.month = 2 → dt.day ≤ 28 := by
      intro hm2
      have h28 : daysInMonth dt.year dt.month = 28 := by
        simp [daysInMonth, hm2, hL, MONTH_DAYS]
      omega
    split
    · rename_i hc
      simp [hL] at hc
    · by_cases hm2 : dt.month = 2
      · have := hfeb hm2
        omega
      · omega

/-- website.py `priority_class`. -/
def priority_class (value : String) : String :=
  let text := pyLower (pyStrip value)
  if text = "high" then "pill-danger"
  else if text = "low" then "pill-success"
  else "pill-warning"

/-- website.py `task_status_class` (`{"done","complete","completed"}` and
`{"in progress","in-progress","inprogress"}` tests). -/
def task_status_class (value : String) : String :=
  let text := pyLower (pyStrip value)
  if text = "done" ∨ text = "complete" ∨ text = "completed" then "pill-success"
  else if text = "in progress" ∨ text = "in-progress" ∨ text = "inprogress" then "pill-info"
  else "pill-muted"

/-- website.py `normalize_phase`: falsy values (here: the empty string, the
database NULL rendering) give `""`; otherwise the stripped lowercased text
must equal one of the five phase labels lowercased. -/
def normalize_phase (value : String) : String :=
  if value = "" then ""
  else
    let text := pyLower (pyStrip value)
    match PHASES.find? (fun phase => pyLower phase = text) with
    | some phase => phase
    | none => ""

/-- A row of the `tasks` table (NULL text columns are modelled as `""`,
which every consumer coalesces with `or ""` / falsiness anyway). -/
structure TaskRow where
  id : ℤ
  task : String
  owner : String
  due_date : String
  priority : String
  status : String
deriving DecidableEq, Repr

/-- The task dict after `build_tasks_view` augments it: `{**task,
"due_date": ..., "priority_class": ..., "status_text": ..., "status_class": ...}`. -/
structure TaskView where
  id : ℤ
  task : String
  owner : String
  due_date : String
  priority : String
  status : String
  priority_class : String
  status_text : String
  status_class : String
deriving DecidableEq, Repr

/-- Decimal rendering zero-padded to width `w` (`strftime` field padding). -/
def padZeros (w n : ℕ) : String :=
  let s := toString n
  ⟨List.replicate (w - s.data.length) '0' ++ s.data⟩

/-- `due.date().strftime("%Y-%m-%d")`. -/
def formatYmd (d : Ymd) : String :=
  padZeros 4 d.year ++ "-" ++ padZeros 2 d.month ++ "-" ++ padZeros 2 d.day

/-- `str(task.get("status") or "").strip() or "Not started"`. -/
def task_status_text (t : TaskRow) : String :=
  let s := pyStrip t.status
  if s = "" then "Not started" else s

/-- The per-task view dict construction inside `build_tasks_view`. -/
def taskView (t : TaskRow) : TaskView :=
  { id := t.id, task := t.task, owner := t.owner
  , due_date :=
      match parse_date t.due_date with
      | some d => formatYmd d
      | none => ""
  , priority := t.priority
  , status := t.status
  , priority_class := priority_class t.priority
  , status_text := task_status_text t
  , status_class := task_status_class (task_status_text t) }

/-- `{"high": 0, "medium": 1, "low": 2}.get(str(item.get("priority") or "").lower(), 1)`. -/
def priorityRank (priority : String) : ℕ :=
  let p := pyLower priority
  if p = "high" then 0 else if p = "medium" then 1 else if p = "low" then 2 else 1

def USEC_PER_DAY : ℕ := 86400000000

/-- `datetime.max` (9999-12-31 23:59:59.999999) in the
microseconds-since-origin encoding of datetimes used for the sort key. -/
def DATETIME_MAX_USEC : ℕ := 3652059 * USEC_PER_DAY + 86399999999

/-- The due component of `sort_key`: `parse_date(item.get("due_date")) or
datetime.max`; a parsed date is a datetime at midnight of its day. -/
def dueKey (due_date : String) : ℕ :=
  match parse_date due_date with
  | some d => toOrdinal d * USEC_PER_DAY
  | none => DATETIME_MAX_USEC

/-- `sort_key` from `build_tasks_view`: the pair (priority_rank, due) packed
lexicographically into one natural (`dueKey` is always below 10^18). -/
def sort_key (v : TaskView) : ℕ :=
  priorityRank v.priority * 1000000000000000000 + dueKey v.due_date

def sortLE (a b : TaskView) : Prop := sort_key a ≤ sort_key b

instance : DecidableRel sortLE := fun a b => Nat.decLe (sort_key a) (sort_key b)

instance : IsTotal TaskView sortLE := ⟨fun a b => Nat.le_total (sort_key a) (sort_key b)⟩

instance : IsTrans TaskView sortLE := ⟨fun _ _ _ => Nat.le_trans⟩

/-- `parse_date` of the raw row followed by `.date().toordinal()`. -/
def taskDueOrd (t : TaskRow) : Option ℕ := (parse_date t.due_date).map toOrdinal

/-- `date.weekday()`: Monday is 0 (CPython: `(toordinal + 6) % 7`). -/
def ordWeekday (ord : ℕ) : ℕ := (ord + 6) % 7

/-- `week_start = today - timedelta(days=today.weekday())` on date ordinals. -/
def weekStart (todayOrd : ℕ) : ℕ := todayOrd - ordWeekday todayOrd

/-- One entry of the `days` list of `build_tasks_view`, identified by its
date ordinal.  The two `strftime` display labels (`"%a"`, `"%b %d"`) are
presentation-only renderings of the same date and are not modelled. -/
structure DayView where
  ord : ℕ
  is_today : Bool
  tasks : List TaskView
deriving DecidableEq, Repr

/-- The value of `build_tasks_view` (the `week_label` rendering of
`week_start` is again presentation-only). -/
structure TasksView where
  bars : List TaskView
  days : List DayView
deriving DecidableEq, Repr

/-- website.py `build_tasks_view`, with `datetime.now().date().toordinal()`
passed in as `todayOrd` and the fetched `tasks` rows as `tasks`.  Appending
each matching task in fetch order and then sorting with the stable
`list.sort` is filtering in order followed by a stable sort. -/
def build_tasks_view (todayOrd : ℕ) (tasks : List TaskRow) : TasksView :=
  let ws := weekStart todayOrd
  let bars := List.insertionSort sortLE (tasks.map taskView)
  let days := (List.range 7).map (fun offset =>
    { ord := ws + offset
    , is_today := decide (ws + offset = todayOrd)
    , tasks := List.insertionSort sortLE
        ((tasks.filter (fun t => decide (taskDueOrd t = some (ws + offset)))).map taskView) })
  { bars := bars, days := days }

theorem dueKey_le (s : String) : dueKey s ≤ DATETIME_MAX_USEC := by
  cases h : parse_date s with
  | none => simp [dueKey, h]
  | some d =>
    have hord := toOrdinal_le_max d (parse_date_ok s d h)
    have hmul := Nat.mul_le_mul_right USEC_PER_DAY hord
    simp only [dueKey, h]
    unfold DATETIME_MAX_USEC
    omega

theorem dueKey_lt_of_parsed (s : String) (h : parse_date s ≠ none) :
    dueKey s < DATETIME_MAX_USEC := by
  cases hp : parse_date s with
  | none => exact absurd hp h
  | some d =>
    have hord := toOrdinal_le_max d (parse_date_ok s d hp)
    have hmul := Nat.mul_le_mul_right USEC_PER_DAY hord
    simp only [dueKey, hp]
    unfold DATETIME_MAX_USEC
    unfold USEC_PER_DAY at hmul ⊢
    omega

theorem DATETIME_MAX_USEC_lt : DATETIME_MAX_USEC < 1000000000000000000 := by
  unfold DATETIME_MAX_USEC USEC_PER_DAY
  norm_num

/-- Claim C3: in `build_tasks_view` the bars list and every per-day list are
sorted by (and only by) the key (priority rank, parsed due date): the rank is
0 for a priority whose lowercased text is "high", 2 for "low" and 1 for every
other value, and within an equal rank an unparseable or missing due date sorts
strictly after every parseable one. -/
theorem claim_C3 (todayOrd : ℕ) (tasks : List TaskRow) :
    List.Sorted sortLE (build_tasks_view todayOrd tasks).bars
  ∧ (∀ dv ∈ (build_tasks_view todayOrd tasks).days, List.Sorted sortLE dv.tasks)
  ∧ (build_tasks_view todayOrd tasks).bars.Perm (tasks.map taskView)
  ∧ (∀ s : String, (pyLower s = "high" → priorityRank s = 0)
      ∧ (pyLower s = "low" → priorityRank s = 2)
      ∧ (pyLower s ≠ "high" → pyLower s ≠ "low" → priorityRank s = 1))
  ∧ (∀ a b : TaskView, sortLE a b ↔
        (priorityRank a.priority < priorityRank b.priority
          ∨ (priorityRank a.priority = priorityRank b.priority
              ∧ dueKey a.due_date ≤ dueKey b.due_date)))
  ∧ (∀ a b : TaskView, priorityRank a.priority = priorityRank b.priority →
        parse_date a.due_date = none → parse_date b.due_date ≠ none →
        sort_key b < sort_key a) := by
  refine ⟨?_, ?_, ?_, ?_, ?_, ?_⟩
  · exact List.sorted_insertionSort sortLE _
  · intro dv hdv
    simp only [build_tasks_view, List.mem_map, List.mem_range] at hdv
    obtain ⟨offset, -, rfl⟩ := hdv
    exact List.sorted_insertionSort sortLE _
  · exact List.perm_insertionSort sortLE _
  · intro s
    refine ⟨?_, ?_, ?_⟩
    · intro h; simp [priorityRank, h]
    · intro h; simp [priorityRank, h]
    · intro h1 h2
      unfold priorityRank
      by_cases hm : pyLower s = "medium" <;> simp [h1, h2, hm]
  · intro a b
    have ha := dueKey_le a.due_date
    have hb := dueKey_le b.due_date
    have hm := DATETIME_MAX_USEC_lt
    unfold sortLE sort_key
    omega
  · intro a b hrank hnone hsome
    have hb := dueKey_lt_of_parsed b.due_date hsome
    have ha : dueKey a.due_date = DATETIME_MAX_USEC := by
      unfold dueKey
      rw [hnone]
    unfold sort_key
    omega

/-- Claim C4: `build_tasks_view` produces exactly 7 consecutive day entries
starting at the Monday of the current week, a task lands in a day's list iff
its due_date parses (formats `%Y-%m-%d`, `%m/%d/%Y`, `%Y/%m/%d`) to exactly
that day, and every task appears once in the bars list. -/
theorem claim_C4 (todayOrd : ℕ) (tasks : List TaskRow) (h : 0 < todayOrd) :
    (build_tasks_view todayOrd tasks).days.length = 7
  ∧ (∀ i : ℕ, ∀ hi : i < (build_tasks_view todayOrd tasks).days.length,
      ((build_tasks_view todayOrd tasks).days.get ⟨i, hi⟩).ord = weekStart todayOrd + i)
  ∧ ordWeekday (weekStart todayOrd) = 0
  ∧ weekStart todayOrd ≤ todayOrd
  ∧ todayOrd < weekStart todayOrd + 7
  ∧ (∀ i : ℕ, ∀ hi : i < (build_tasks_view todayOrd tasks).days.length, ∀ v : TaskView,
      v ∈ ((build_tasks_view todayOrd tasks).days.get ⟨i, hi⟩).tasks
        ↔ ∃ t ∈ tasks, taskDueOrd t = some (weekStart todayOrd + i) ∧ taskView t = v)
  ∧ (build_tasks_view todayOrd tasks).bars.Perm (tasks.map taskView) := by
  refine ⟨?_, ?_, ?_, ?_, ?_, ?_, ?_⟩
  · simp [build_tasks_view]
  · intro i hi
    have hi7 : i < 7 := by simpa [build_tasks_view] using hi
    simp [build_tasks_view, hi7]
  · unfold weekStart ordWeekday
    omega
  · exact Nat.sub_le _ _
  · unfold weekStart ordWeekday
    omega
  · intro i hi v
    have hi7 : i < 7 := by simpa [build_tasks_view] using hi
    have hset :
        ((build_tasks_view todayOrd tasks).days.get ⟨i, hi⟩).tasks
          = List.insertionSort sortLE
              ((tasks.filter
                  (fun t => decide (taskDueOrd t = some (weekStart todayOrd + i)))).map
                taskView) := by
      simp [build_tasks_view, hi7]
    rw [hset]
    rw [(List.perm_insertionSort sortLE _).mem_iff]
    constructor
    · intro hv
      simp only [List.mem_map, List.mem_filter, decide_eq_true_eq] at hv
      obtain ⟨t, ⟨ht, hdue⟩, rfl⟩ := hv
      exact ⟨t, ht, hdue, rfl⟩
    · rintro ⟨t, ht, hdue, rfl⟩
      simp only [List.mem_map, List.mem_filter, decide_eq_true_eq]
      exact ⟨t, ⟨ht, hdue⟩, rfl⟩
  · exact List.perm_insertionSort sortLE _

/-- Witness for C4: ordinal 738886 is 2024-01-01, a Monday, with an empty
task table. -/
theorem claim_C4_witness :
    0 < 738886
  ∧ ((build_tasks_view 738886 []).days.length = 7
  ∧ (∀ i : ℕ, ∀ hi : i < (build_tasks_view 738886 []).days.length,
      ((build_tasks_view 738886 []).days.get ⟨i, hi⟩).ord = weekStart 738886 + i)
  ∧ ordWeekday (weekStart 738886) = 0
  ∧ weekStart 738886 ≤ 738886
  ∧ 738886 < weekStart 738886 + 7
  ∧ (∀ i : ℕ, ∀ hi : i < (build_tasks_view 738886 []).days.length, ∀ v : TaskView,
      v ∈ ((build_tasks_view 738886 []).days.get ⟨i, hi⟩).tasks
        ↔ ∃ t ∈ ([] : List TaskRow), taskDueOrd t = some (weekStart 738886 + i) ∧ taskView t = v)
  ∧ (build_tasks_view 738886 []).bars.Perm (([] : List TaskRow).map taskView)) :=
  ⟨by decide, claim_C4 738886 [] (by decide)⟩

/-- website.py `CARD_KEYS`. -/
def CARD_KEYS : List String :=
  ["development_progress", "bom", "documentation", "system_status", "tasks", "risks"]

/-- A row of the `card_state` table: `key` is the primary key; a NULL
`pinned` is falsy exactly like 0 and is modelled as 0. -/
structure CardRow where
  key : String
  position : ℤ
  pinned : ℤ
deriving DecidableEq, Repr

/-- The sort key of `ordered_card_keys`: `item[1].get("position", 0)`. -/
def cardLE (a b : CardRow) : Prop := a.position ≤ b.position

instance : DecidableRel cardLE := fun a b => Int.decLe a.position b.position

instance : IsTotal CardRow cardLE := ⟨fun a b => Int.le_total a.position b.position⟩

instance : IsTrans CardRow cardLE := ⟨fun _ _ _ h1 h2 => le_trans h1 h2⟩

/-- website.py `ordered_card_keys` over the fetched `card_state` rows (in
fetch order; Python's `sorted` is stable).  `meta.get("pinned")` truthiness
is `pinned ≠ 0`. -/
def ordered_card_keys (state : List CardRow) : List String :=
  let ordered := List.insertionSort cardLE state
  let pinned := (ordered.filter (fun r => decide (r.pinned ≠ 0))).map CardRow.key
  let unpinned := (ordered.filter (fun r => decide (r.pinned = 0))).map CardRow.key
  let unpinned2 := CARD_KEYS.foldl
    (fun u k => if k ∉ pinned ∧ k ∉ u then u ++ [k] else u) unpinned
  pinned ++ unpinned2

/-- Appending the keys missing from `p` and `u`, over a duplicate-free key
list, is filtering. -/
theorem foldl_append_missing (ks : List String) (p : List String) :
    ∀ u : List String, ks.Nodup →
      ks.foldl (fun u k => if k ∉ p ∧ k ∉ u then u ++ [k] else u) u
        = u ++ ks.filter (fun k => decide (k ∉ p ∧ k ∉ u)) := by
  induction ks with
  | nil => intro u _; simp
  | cons k ks ih =>
    intro u hnd
    have hks : ks.Nodup := hnd.of_cons
    have hkmem : k ∉ ks := by
      rw [List.nodup_cons] at hnd
      exact hnd.1
    simp only [List.foldl_cons]
    by_cases hc : k ∉ p ∧ k ∉ u
    · rw [if_pos hc, ih (u ++ [k]) hks]
      have hfe : ks.filter (fun x => decide (x ∉ p ∧ x ∉ u ++ [k]))
          = ks.filter (fun x => decide (x ∉ p ∧ x ∉ u)) := by
        apply List.filter_congr
        intro x hx
        have hxk : x ≠ k := fun he => hkmem (he ▸ hx)
        simp [List.mem_append, hxk]
      rw [hfe]
      simp [List.filter_cons, hc]
    · rw [if_neg hc, ih u hks]
      simp [List.filter_cons, hc]

/-- A duplicate-free list inside `K`, completed with the members of the
duplicate-free `K` that are missing from it, is a permutation of `K`. -/
theorem append_missing_perm (S K : List String) (hS : S.Nodup) (hK : K.Nodup)
    (hsub : ∀ x ∈ S, x ∈ K) :
    (S ++ K.filter (fun k => decide (k ∉ S))).Perm K := by
  have h4 : (K.filter (fun k => decide (k ∈ S))).Perm S := by
    rw [List.perm_ext_iff_of_nodup (hK.filter _) hS]
    intro a
    simp only [List.mem_filter, decide_eq_true_eq]
    exact ⟨fun h => h.2, fun h => ⟨hsub a h, h⟩⟩
  have h5 : (K.filter (fun k => decide (k ∈ S))
      ++ K.filter (fun k => decide (k ∉ S))).Perm K := by
    have he : (fun k => decide (k ∉ S)) = fun k => !decide (k ∈ S) := by
      funext k
      by_cases h : k ∈ S <;> simp [h]
    rw [he]
    exact List.filter_append_perm _ K
  exact ((h4.symm.append_right _).trans h5)

/-- Claim C7: for a `card_state` whose keys are distinct and drawn from
`CARD_KEYS`, `ordered_card_keys` yields every key of `CARD_KEYS` exactly once:
the pinned group (ascending position) first, then the unpinned group
(ascending position), then the keys missing from the state in `CARD_KEYS`
order. -/
theorem claim_C7 (state : List CardRow)
    (hsub : ∀ r ∈ state, r.key ∈ CARD_KEYS)
    (hnd : (state.map CardRow.key).Nodup) :
    ordered_card_keys state
      = ((List.insertionSort cardLE state).filter (fun r => decide (r.pinned ≠ 0))).map CardRow.key
        ++ (((List.insertionSort cardLE state).filter (fun r => decide (r.pinned = 0))).map CardRow.key
            ++ CARD_KEYS.filter (fun k => decide (k ∉ state.map CardRow.key)))
  ∧ (ordered_card_keys state).Perm CARD_KEYS
  ∧ List.Sorted cardLE ((List.insertionSort cardLE state).filter (fun r => decide (r.pinned ≠ 0)))
  ∧ List.Sorted cardLE ((List.insertionSort cardLE state).filter (fun r => decide (r.pinned = 0)))
  ∧ (∀ k : String,
      k ∈ ((List.insertionSort cardLE state).filter
            (fun r => decide (r.pinned ≠ 0))).map CardRow.key
        ↔ ∃ r ∈ state, r.key = k ∧ r.pinned ≠ 0) := by
  have hperm_sort : (List.insertionSort cardLE state).Perm state :=
    List.perm_insertionSort _ _
  have hPU : ∀ k : String,
      (k ∈ ((List.insertionSort cardLE state).filter
              (fun r => decide (r.pinned ≠ 0))).map CardRow.key
        ∨ k ∈ ((List.insertionSort cardLE state).filter
              (fun r => decide (r.pinned = 0))).map CardRow.key)
        ↔ k ∈ state.map CardRow.key := by
    intro k
    simp only [List.mem_map, List.mem_filter, decide_eq_true_eq, hperm_sort.mem_iff]
    constructor
    · rintro (⟨r, ⟨hr, -⟩, rfl⟩ | ⟨r, ⟨hr, -⟩, rfl⟩) <;> exact ⟨r, hr, rfl⟩
    · rintro ⟨r, hr, rfl⟩
      by_cases hp : r.pinned = 0
      · right; exact ⟨r, ⟨hr, hp⟩, rfl⟩
      · left; exact ⟨r, ⟨hr, hp⟩, rfl⟩
  have hpred : (fun k => decide
        (k ∉ ((List.insertionSort cardLE state).filter
                (fun r => decide (r.pinned ≠ 0))).map CardRow.key
          ∧ k ∉ ((List.insertionSort cardLE state).filter
                (fun r => decide (r.pinned = 0))).map CardRow.key))
      = fun k => decide (k ∉ state.map CardRow.key) := by
    funext k
    apply decide_eq_decide.mpr
    rw [← hPU k]
    tauto
  have heq : ordered_card_keys state
      = ((List.insertionSort cardLE state).filter (fun r => decide (r.pinned ≠ 0))).map CardRow.key
        ++ (((List.insertionSort cardLE state).filter
              (fun r => decide (r.pinned = 0))).map CardRow.key
            ++ CARD_KEYS.filter (fun k => decide (k ∉ state.map CardRow.key))) := by
    simp only [ordered_card_keys]
    rw [foldl_append_missing CARD_KEYS _ _ (by decide), hpred]
  refine ⟨heq, ?_, ?_, ?_, ?_⟩
  · rw [heq, ← List.append_assoc]
    have hsplit : ((List.insertionSort cardLE state).filter (fun r => decide (r.pinned ≠ 0))
        ++ (List.insertionSort cardLE state).filter (fun r => decide (r.pinned = 0))).Perm
          (List.insertionSort cardLE state) := by
      have he : (fun r : CardRow => decide (r.pinned = 0))
          = fun r => !decide (r.pinned ≠ 0) := by
        funext r
        by_cases h : r.pinned = 0 <;> simp [h]
      rw [he]
      exact List.filter_append_perm _ _
    have hPUperm : (((List.insertionSort cardLE state).filter
            (fun r => decide (r.pinned ≠ 0))).map CardRow.key
        ++ ((List.insertionSort cardLE state).filter
            (fun r => decide (r.pinned = 0))).map CardRow.key).Perm
          (state.map CardRow.key) := by
      have hm := (hsplit.trans hperm_sort).map CardRow.key
      simpa using hm
    refine (hPUperm.append_right _).trans ?_
    apply append_missing_perm _ _ hnd (by decide)
    intro x hx
    obtain ⟨r, hr, rfl⟩ := List.mem_map.mp hx
    exact hsub r hr
  · exact List.Pairwise.sublist (List.filter_sublist _) (List.sorted_insertionSort cardLE state)
  · exact List.Pairwise.sublist (List.filter_sublist _) (List.sorted_insertionSort cardLE state)
  · intro k
    simp only [List.mem_map, List.mem_filter, decide_eq_true_eq, hperm_sort.mem_iff]
    constructor
    · rintro ⟨r, ⟨hr, hp⟩, rfl⟩
      exact ⟨r, hr, rfl, hp⟩
    · rintro ⟨r, hr, rfl, hp⟩
      exact ⟨r, ⟨hr, hp⟩, rfl⟩

/-- A concrete card_state: "bom" pinned, "tasks" and "risks" unpinned, three
keys missing. -/
def c7state : List CardRow := [⟨"tasks", 0, 0⟩, ⟨"bom", 1, 1⟩, ⟨"risks", 2, 0⟩]

/-- Witness for C7 at the concrete state `c7state`. -/
theorem claim_C7_witness :
    ordered_card_keys c7state
      = ((List.insertionSort cardLE c7state).filter (fun r => decide (r.pinned ≠ 0))).map CardRow.key
        ++ (((List.insertionSort cardLE c7state).filter (fun r => decide (r.pinned = 0))).map CardRow.key
            ++ CARD_KEYS.filter (fun k => decide (k ∉ c7state.map CardRow.key)))
  ∧ (ordered_card_keys c7state).Perm CARD_KEYS
  ∧ List.Sorted cardLE ((List.insertionSort cardLE c7state).filter (fun r => decide (r.pinned ≠ 0)))
  ∧ List.Sorted cardLE ((List.insertionSort cardLE c7state).filter (fun r => decide (r.pinned = 0)))
  ∧ (∀ k : String,
      k ∈ ((List.insertionSort cardLE c7state).filter
            (fun r => decide (r.pinned ≠ 0))).map CardRow.key
        ↔ ∃ r ∈ c7state, r.key = k ∧ r.pinned ≠ 0) :=
  claim_C7 c7state (by decide) (by decide)

/-- A scalar JSON value as carried by an entity payload field (form fields
post scalars; `None` is the JSON null). -/
inductive JScal where
  | jnull : JScal
  | jbool (b : Bool) : JScal
  | jstr (s : String) : JScal
  | jnum (n : ℤ) : JScal
deriving DecidableEq, Repr

/-- Python `str(value)` on a scalar. -/
def pyStr : JScal → String
  | .jnull => "None"
  | .jbool true => "True"
  | .jbool false => "False"
  | .jstr s => s
  | .jnum n => toString n

/-- website.py `ENTITY_DEFS`, reduced to each entity's field-name list (the
labels, input types and widgets are presentation-only and never read by the
data layer). -/
def ENTITY_DEFS : List (String × List String) :=
  [ ("project", ["name"])
  , ("bom", ["item", "part_number", "qty", "unit_cost", "supplier",
             "lead_time_days", "status", "link"])
  , ("documentation", ["title", "doc_type", "location", "status"])
  , ("system_status", ["is_online", "reason", "estimated_downtime"])
  , ("tasks", ["task", "due_date", "priority", "status"])
  , ("risks", ["risk", "impact", "solution", "status"])
  , ("development_log", ["log_date", "summary", "details"]) ]

/-- A sanitized value: `is_online` is written as the integer 1/0, every other
field as a string. -/
inductive SVal where
  | sint (n : ℤ) : SVal
  | sstr (s : String) : SVal
deriving DecidableEq, Repr

/-- `payload.get(name, "")`. -/
def payloadGet (payload : List (String × JScal)) (name : String) : JScal :=
  match payload.lookup name with
  | some v => v
  | none => .jstr ""

/-- One iteration of the `sanitize_payload` loop body. -/
def sanitize_field (payload : List (String × JScal)) (name : String) : SVal :=
  let value := payloadGet payload name
  if name = "is_online" then
    .sint (if pyLower (pyStr value) ∈ ["1", "true", "yes", "on"] then 1 else 0)
  else
    .sstr (match value with
      | .jnull => ""
      | v => pyStrip (pyStr v))

/-- website.py `sanitize_payload`: the dict built over the entity's declared
fields, in declaration order.  Every caller passes an entity of
`ENTITY_DEFS` (an unknown entity would raise `KeyError`). -/
def sanitize_payload (entity : String) (payload : List (String × JScal)) :
    List (String × SVal) :=
  ((ENTITY_DEFS.lookup entity).getD []).map (fun name => (name, sanitize_field payload name))

theorem map_fst_pairs {β : Type} (g : String → β) (l : List String) :
    ((l.map (fun n => (n, g n))).map Prod.fst) = l := by
  induction l with
  | nil => rfl
  | cons a l ih => simp [ih]

theorem lookup_mem {β : Type} (a : String) (b : β) :
    ∀ l : List (String × β), l.lookup a = some b → (a, b) ∈ l := by
  intro l
  induction l with
  | nil => intro h; simp [List.lookup] at h
  | cons hd tl ih =>
    intro h
    obtain ⟨k, v⟩ := hd
    simp only [List.lookup] at h
    cases hbe : (a == k) with
    | true =>
      rw [hbe] at h
      rw [Option.some.injEq] at h
      subst h
      have hak : a = k := beq_iff_eq.mp hbe
      subst hak
      exact List.mem_cons_self _ _
    | false =>
      rw [hbe] at h
      exact List.mem_cons_of_mem _ (ih h)

theorem lookup_map_pair {β : Type} (fields : List String) (g : String → β) (name : String)
    (hnd : fields.Nodup) (hmem : name ∈ fields) :
    (fields.map (fun n => (n, g n))).lookup name = some (g name) := by
  induction fields with
  | nil => cases hmem
  | cons f fs ih =>
    rcases List.mem_cons.mp hmem with rfl | hmem'
    · simp [List.lookup]
    · have hne : name ≠ f := by
        rintro rfl
        exact (List.nodup_cons.mp hnd).1 hmem'
      have hbe : (name == f) = false := beq_eq_false_iff_ne.mpr hne
      simp only [List.map_cons, List.lookup, hbe]
      exact ih (List.nodup_cons.mp hnd).2 hmem'

theorem entity_fields_nodup (entity : String) (fields : List String)
    (hent : ENTITY_DEFS.lookup entity = some fields) : fields.Nodup := by
  have hmem : (entity, fields) ∈ ENTITY_DEFS := lookup_mem entity fields ENTITY_DEFS hent
  simp only [ENTITY_DEFS, List.mem_cons, List.not_mem_nil, or_false] at hmem
  rcases hmem with h | h | h | h | h | h | h <;>
    (rw [Prod.mk.injEq] at h; rw [h.2]) <;> decide

/-- Claim C8: `sanitize_payload` keeps exactly the entity's declared field
names (payload keys outside the schema never influence the result);
`is_online` maps to 1 iff the lowercased string form of its value is one of
"1", "true", "yes", "on" and to 0 otherwise; every other field maps to the
stripped string form of its value, with `None` and missing values mapping to
the empty string. -/
theorem claim_C8 (entity : String) (fields : List String) (payload : List (String × JScal))
    (hent : ENTITY_DEFS.lookup entity = some fields) :
    (sanitize_payload entity payload).map Prod.fst = fields
  ∧ (∀ payload2 : List (String × JScal),
      (∀ n ∈ fields, payloadGet payload n = payloadGet payload2 n) →
      sanitize_payload entity payload = sanitize_payload entity payload2)
  ∧ (∀ name ∈ fields, name = "is_online" →
      ((sanitize_payload entity payload).lookup name = some (.sint 1)
          ↔ pyLower (pyStr (payloadGet payload name)) ∈ ["1", "true", "yes", "on"])
      ∧ ((sanitize_payload entity payload).lookup name = some (.sint 0)
          ↔ pyLower (pyStr (payloadGet payload name)) ∉ ["1", "true", "yes", "on"]))
  ∧ (∀ name ∈ fields, name ≠ "is_online" →
      (payloadGet payload name = .jnull →
        (sanitize_payload entity payload).lookup name = some (.sstr ""))
      ∧ (payload.lookup name = none →
        (sanitize_payload entity payload).lookup name = some (.sstr ""))
      ∧ (payloadGet payload name ≠ .jnull →
        (sanitize_payload entity payload).lookup name
          = some (.sstr (pyStrip (pyStr (payloadGet payload name)))))) := by
  have hnd := entity_fields_nodup entity fields hent
  have hflds : (ENTITY_DEFS.lookup entity).getD [] = fields := by rw [hent]; rfl
  have hlook : ∀ name ∈ fields,
      (sanitize_payload entity payload).lookup name
        = some (sanitize_field payload name) := by
    intro name hmem
    unfold sanitize_payload
    rw [hflds]
    exact lookup_map_pair fields _ name hnd hmem
  refine ⟨?_, ?_, ?_, ?_⟩
  · unfold sanitize_payload
    rw [hflds]
    exact map_fst_pairs _ fields
  · intro payload2 hsame
    unfold sanitize_payload
    rw [hflds]
    apply List.map_congr_left
    intro n hn
    unfold sanitize_field
    rw [hsame n hn]
  · intro name hmem hon
    rw [hlook name hmem]
    subst hon
    unfold sanitize_field
    simp only [if_pos rfl, Option.some.injEq]
    by_cases hin : pyLower (pyStr (payloadGet payload "is_online")) ∈ ["1", "true", "yes", "on"]
    · simp [hin]
    · simp [hin]
  · intro name hmem hne
    refine ⟨?_, ?_, ?_⟩
    · intro hnull
      rw [hlook name hmem]
      unfold sanitize_field
      rw [if_neg hne, hnull]
    · intro hmiss
      rw [hlook name hmem]
      unfold sanitize_field
      rw [if_neg hne]
      unfold payloadGet
      rw [hmiss]
      simp [pyStrip, pyStr]
    · intro hnn
      rw [hlook name hmem]
      unfold sanitize_field
      rw [if_neg hne]
      cases hv : payloadGet payload name with
      | jnull => exact absurd hv hnn
      | jbool b => rfl
      | jstr s => rfl
      | jnum n => rfl

/-- Witness for C8: the system_status entity with an `is_online` value "Yes",
a null `reason`, and an out-of-schema key. -/
theorem claim_C8_witness :
    (sanitize_payload "system_status"
        [("is_online", JScal.jstr "Yes"), ("junk", JScal.jnum 5), ("reason", JScal.jnull)]).map Prod.fst
      = ["is_online", "reason", "estimated_downtime"]
  ∧ (∀ payload2 : List (String × JScal),
      (∀ n ∈ ["is_online", "reason", "estimated_downtime"],
        payloadGet [("is_online", JScal.jstr "Yes"), ("junk", JScal.jnum 5), ("reason", JScal.jnull)] n
          = payloadGet payload2 n) →
      sanitize_payload "system_status"
          [("is_online", JScal.jstr "Yes"), ("junk", JScal.jnum 5), ("reason", JScal.jnull)]
        = sanitize_payload "system_status" payload2)
  ∧ (∀ name ∈ ["is_online", "reason", "estimated_downtime"], name = "is_online" →
      ((sanitize_payload "system_status"
            [("is_online", JScal.jstr "Yes"), ("junk", JScal.jnum 5), ("reason", JScal.jnull)]).lookup name
          = some (SVal.sint 1)
        ↔ pyLower (pyStr (payloadGet
            [("is_online", JScal.jstr "Yes"), ("junk", JScal.jnum 5), ("reason", JScal.jnull)] name))
            ∈ ["1", "true", "yes", "on"])
      ∧ ((sanitize_payload "system_status"
            [("is_online", JScal.jstr "Yes"), ("junk", JScal.jnum 5), ("reason", JScal.jnull)]).lookup name
          = some (SVal.sint 0)
        ↔ pyLower (pyStr (payloadGet
            [("is_online", JScal.jstr "Yes"), ("junk", JScal.jnum 5), ("reason", JScal.jnull)] name))
            ∉ ["1", "true", "yes", "on"]))
  ∧ (∀ name ∈ ["is_online", "reason", "estimated_downtime"], name ≠ "is_online" →
      (payloadGet [("is_online", JScal.jstr "Yes"), ("junk", JScal.jnum 5), ("reason", JScal.jnull)] name
          = JScal.jnull →
        (sanitize_payload "system_status"
            [("is_online", JScal.jstr "Yes"), ("junk", JScal.jnum 5), ("reason", JScal.jnull)]).lookup name
          = some (SVal.sstr ""))
      ∧ (List.lookup name [("is_online", JScal.jstr "Yes"), ("junk", JScal.jnum 5), ("reason", JScal.jnull)]
          = none →
        (sanitize_payload "system_status"
            [("is_online", JScal.jstr "Yes"), ("junk", JScal.jnum 5), ("reason", JScal.jnull)]).lookup name
          = some (SVal.sstr ""))
      ∧ (payloadGet [("is_online", JScal.jstr "Yes"), ("junk", JScal.jnum 5), ("reason", JScal.jnull)] name
          ≠ JScal.jnull →
        (sanitize_payload "system_status"
            [("is_online", JScal.jstr "Yes"), ("junk", JScal.jnum 5), ("reason", JScal.jnull)]).lookup name
          = some (SVal.sstr (pyStrip (pyStr (payloadGet
              [("is_online", JScal.jstr "Yes"), ("junk", JScal.jnum 5), ("reason", JScal.jnull)] name)))))) :=
  claim_C8 "system_status" ["is_online", "reason", "estimated_downtime"]
    [("is_online", JScal.jstr "Yes"), ("junk", JScal.jnum 5), ("reason", JScal.jnull)] (by decide)

/-- A row of `development_log`. -/
structure LogRow where
  id : ℤ
  log_date : String
  summary : String
  details : String
deriving DecidableEq, Repr

/-- One section produced by `build_sections` (key, title, field names,
labels, rows as generic field/value records). -/
structure SectionView where
  key : String
  title : String
  fields : List String
  labels : List (String × String)
  rows : List (List (String × String))
deriving DecidableEq, Repr

/-- The dashboard payload assembled by `load_dashboard_data` /
`empty_dashboard_data`, flattened to the fields both producers give it.
`updated` is `datetime.now().strftime(...)`, passed in by the caller. -/
structure DashboardData where
  project_name : String
  project_phase : String
  percent_value : ℤ
  percent_label : String
  phase : String
  progress_percent : Option ℤ
  progress_phase : String
  progress_status_text : String
  logs : List LogRow
  task_bars : List TaskView
  sections : List SectionView
  updated : String
  error : String
deriving DecidableEq, Repr

/-- website.py `empty_dashboard_data`. -/
def empty_dashboard_data (now : String) (error : String) : DashboardData :=
  { project_name := "Project", project_phase := "", percent_value := 0
  , percent_label := "0%", phase := "", progress_percent := none
  , progress_phase := "", progress_status_text := "", logs := []
  , task_bars := [], sections := [], updated := now, error := error }

/-- website.py `load_dashboard_data_safe`: `load_dashboard_data` either
returns data or raises; its outcome is the `Except` argument (the message of
the raised exception on the error side). -/
def load_dashboard_data_safe (now : String) (attempt : Except String DashboardData) :
    DashboardData :=
  match attempt with
  | .ok data => { data with error := "" }
  | .error exc => empty_dashboard_data now exc

/-- Claim C5: `load_dashboard_data_safe` is total on both outcomes of
`load_dashboard_data`: on success it returns that data with `error` set to
`""`; on any exception it returns the fixed empty dashboard payload (project
name "Project", percent 0 / "0%", empty logs, sections and task bars) whose
`error` field is the exception's message. -/
theorem claim_C5 :
    (∀ now : String, ∀ d : DashboardData,
      load_dashboard_data_safe now (Except.ok d) = { d with error := "" })
  ∧ (∀ now exc : String,
      load_dashboard_data_safe now (Except.error exc) = empty_dashboard_data now exc
      ∧ (load_dashboard_data_safe now (Except.error exc)).project_name = "Project"
      ∧ (load_dashboard_data_safe now (Except.error exc)).percent_value = 0
      ∧ (load_dashboard_data_safe now (Except.error exc)).percent_label = "0%"
      ∧ (load_dashboard_data_safe now (Except.error exc)).logs = []
      ∧ (load_dashboard_data_safe now (Except.error exc)).sections = []
      ∧ (load_dashboard_data_safe now (Except.error exc)).task_bars = []
      ∧ (load_dashboard_data_safe now (Except.error exc)).error = exc) :=
  ⟨fun _ _ => rfl, fun _ _ => ⟨rfl, rfl, rfl, rfl, rfl, rfl, rfl, rfl⟩⟩

/-- The `project` table row (id 1 is the only row the app writes). -/
structure ProjectRow where
  name : String
  owner : String
  phase : String
  target_release : String
deriving DecidableEq, Repr

/-- The `development_progress` table row. -/
structure ProgressRow where
  percent : Option ℤ
  phase : String
  status_text : String
deriving DecidableEq, Repr

/-- The database state: the two singleton tables indexed by id (a missing id
maps to `none`), the remaining tables as generic row lists that the two
update operations never touch. -/
structure DBState where
  project : ℤ → Option ProjectRow
  development_progress : ℤ → Option ProgressRow
  bom : List (List (String × String))
  documentation : List (List (String × String))
  system_status : List (List (String × String))
  tasks : List (List (String × String))
  risks : List (List (String × String))
  development_log : List (List (String × String))
  card_state : List CardRow

/-- website.py `update_project`: `UPDATE project SET name = %s WHERE id = 1`
with the sanitized name. -/
def update_project (payload : List (String × JScal)) (db : DBState) : DBState :=
  let data := sanitize_payload "project" payload
  let newName := match data.lookup "name" with
    | some (SVal.sstr s) => s
    | _ => ""
  { db with project := fun i =>
      if i = 1 then (db.project 1).map (fun r => { r with name := newName })
      else db.project i }

/-- Python `round()` (banker's rounding, halves to even). -/
def pyRound (q : ℚ) : ℤ :=
  let f := ⌊q⌋
  let r := q - f
  if r < 1 / 2 then f
  else if 1 / 2 < r then f + 1
  else if 2 ∣ f then f else f + 1

/-- The payload of `update_progress`: `parse_percent(payload.get("percent"))`
consumes the float-conversion outcome of the percent field, and the phase
field as text (`""` for a falsy value). -/
structure ProgressPayload where
  percent : Option ℚ
  phase : String
deriving Repr

/-- The value of the `percent` local of `update_progress` after its two
fallback branches (website.py lines 691-695). -/
def update_progress_percent (payload : ProgressPayload) : Option ℚ :=
  let percent := parse_percent payload.percent
  let phase := normalize_phase payload.phase
  match percent, PHASE_TO_PERCENT.lookup phase with
  | none, some v => some v
  | p, _ => p

/-- The value of the `phase` local of `update_progress` after its fallback
branch (website.py lines 692-696). -/
def update_progress_phase (payload : ProgressPayload) : String :=
  let phase := normalize_phase payload.phase
  if update_progress_percent payload ≠ none ∧ phase = "" then
    phase_from_percent (update_progress_percent payload)
  else phase

/-- website.py `update_progress`: the seed `INSERT ... ON CONFLICT (id) DO
NOTHING`, the three-column `UPDATE ... WHERE id = 1`, and the conditional
`UPDATE project SET phase = %s WHERE id = 1`. -/
def update_progress (payload : ProgressPayload) (db : DBState) : DBState :=
  let percent_value := (update_progress_percent payload).map pyRound
  let phase := update_progress_phase payload
  let db1 := { db with development_progress := fun i =>
      if i = 1 then
        match db.development_progress 1 with
        | some r => some r
        | none => some ⟨none, "", ""⟩
      else db.development_progress i }
  let db2 := { db1 with development_progress := fun i =>
      if i = 1 then (db1.development_progress 1).map (fun _ => ⟨percent_value, phase, ""⟩)
      else db1.development_progress i }
  if phase ≠ "" then
    { db2 with project := fun i =>
        if i = 1 then (db2.project 1).map (fun r => { r with phase := phase })
        else db2.project i }
  else db2

theorem phase_from_percent_at_50 : phase_from_percent (some 50) = "Prototype" := by
  have c1 : |(50 : ℚ) - 25| < |(50 : ℚ) - 0| := by
    rw [show |(50 : ℚ) - 25| = 25 by rw [abs_of_nonneg] <;> norm_num,
      show |(50 : ℚ) - 0| = 50 by rw [abs_of_nonneg] <;> norm_num]
    norm_num
  have c2 : |(50 : ℚ) - 50| < |(50 : ℚ) - 25| := by
    rw [show |(50 : ℚ) - 50| = 0 by rw [abs_of_nonneg] <;> norm_num,
      show |(50 : ℚ) - 25| = 25 by rw [abs_of_nonneg] <;> norm_num]
    norm_num
  have c3 : ¬(|(50 : ℚ) - 75| < |(50 : ℚ) - 50|) := by
    rw [show |(50 : ℚ) - 75| = 25 by rw [abs_of_nonpos] <;> norm_num,
      show |(50 : ℚ) - 50| = 0 by rw [abs_of_nonneg] <;> norm_num]
    norm_num
  have c4 : ¬(|(50 : ℚ) - 100| < |(50 : ℚ) - 50|) := by
    rw [show |(50 : ℚ) - 100| = 50 by rw [abs_of_nonpos] <;> norm_num,
      show |(50 : ℚ) - 50| = 0 by rw [abs_of_nonneg] <;> norm_num]
    norm_num
  simp only [phase_from_percent, pyMinBy, PHASE_TO_PERCENT, List.foldl_cons, List.foldl_nil]
  rw [if_pos c1, if_pos c2, if_neg c3, if_neg c4]

/-- A database with the singleton project and progress rows present. -/
def c6db : DBState :=
  { project := fun i => if i = 1 then some ⟨"Widget", "", "", ""⟩ else none
  , development_progress := fun i => if i = 1 then some ⟨none, "", ""⟩ else none
  , bom := [], documentation := [], system_status := [], tasks := []
  , risks := [], development_log := [], card_state := [] }

/-- A payload whose phase field is empty but whose percent parses to 50. -/
def c6payload : ProgressPayload := ⟨some 50, ""⟩

/-- Counterexample to C6 as stated: for the payload `{"percent": 50}` the
normalized phase is `""`, yet `update_progress` still writes the phase
column of the project row with id 1 (with the phase derived from the
percent). -/
theorem claim_C6_counterexample :
    normalize_phase c6payload.phase = ""
  ∧ c6db.project 1 = some ⟨"Widget", "", "", ""⟩
  ∧ (update_progress c6payload c6db).project 1 = some ⟨"Widget", "", "Prototype", ""⟩ := by
  have h50 : update_progress_percent c6payload = some 50 := by
    have hm : max (0 : ℚ) (min 100 50) = 50 := by norm_num
    simp only [update_progress_percent, c6payload, parse_percent, normalize_phase, hm,
      PHASE_TO_PERCENT]
  have hph : update_progress_phase c6payload = "Prototype" := by
    unfold update_progress_phase
    rw [h50]
    simp [normalize_phase, c6payload, phase_from_percent_at_50]
  refine ⟨rfl, rfl, ?_⟩
  simp [update_progress, hph, c6db]

/-- Claim C6 (amended): `update_project` writes only the name column of the
project row with id 1; `update_progress` writes only the development_progress
row with id 1 plus, exactly when the effective phase — the normalized payload
phase or, when that is empty and a percent is available, the phase derived
from the percent — is non-empty, the phase column of the project row with
id 1; rows of all other tables and rows with id ≠ 1 are untouched. -/
theorem claim_C6 (payload : List (String × JScal)) (ppay : ProgressPayload) (db : DBState) :
    (update_project payload db).development_progress = db.development_progress
  ∧ (update_project payload db).bom = db.bom
  ∧ (update_project payload db).documentation = db.documentation
  ∧ (update_project payload db).system_status = db.system_status
  ∧ (update_project payload db).tasks = db.tasks
  ∧ (update_project payload db).risks = db.risks
  ∧ (update_project payload db).development_log = db.development_log
  ∧ (update_project payload db).card_state = db.card_state
  ∧ (∀ i : ℤ, i ≠ 1 → (update_project payload db).project i = db.project i)
  ∧ (∃ v : String, (update_project payload db).project 1
      = (db.project 1).map (fun r => { r with name := v }))
  ∧ (update_progress ppay db).bom = db.bom
  ∧ (update_progress ppay db).documentation = db.documentation
  ∧ (update_progress ppay db).system_status = db.system_status
  ∧ (update_progress ppay db).tasks = db.tasks
  ∧ (update_progress ppay db).risks = db.risks
  ∧ (update_progress ppay db).development_log = db.development_log
  ∧ (update_progress ppay db).card_state = db.card_state
  ∧ (∀ i : ℤ, i ≠ 1 →
      (update_progress ppay db).development_progress i = db.development_progress i)
  ∧ (∀ i : ℤ, i ≠ 1 → (update_progress ppay db).project i = db.project i)
  ∧ (update_progress_phase ppay = "" → (update_progress ppay db).project = db.project)
  ∧ (update_progress_phase ppay ≠ "" → (update_progress ppay db).project 1
      = (db.project 1).map (fun r => { r with phase := update_progress_phase ppay })) := by
  refine ⟨rfl, rfl, rfl, rfl, rfl, rfl, rfl, rfl, ?_, ?_, ?_, ?_, ?_, ?_, ?_, ?_, ?_,
    ?_, ?_, ?_, ?_⟩
  · intro i hi
    simp [update_project, hi]
  · refine ⟨match (sanitize_payload "project" payload).lookup "name" with
      | some (SVal.sstr s) => s
      | _ => "", ?_⟩
    simp [update_project]
  · by_cases hph : update_progress_phase ppay = "" <;> simp [update_progress, hph]
  · by_cases hph : update_progress_phase ppay = "" <;> simp [update_progress, hph]
  · by_cases hph : update_progress_phase ppay = "" <;> simp [update_progress, hph]
  · by_cases hph : update_progress_phase ppay = "" <;> simp [update_progress, hph]
  · by_cases hph : update_progress_phase ppay = "" <;> simp [update_progress, hph]
  · by_cases hph : update_progress_phase ppay = "" <;> simp [update_progress, hph]
  · by_cases hph : update_progress_phase ppay = "" <;> simp [update_progress, hph]
  · intro i hi
    by_cases hph : update_progress_phase ppay = "" <;> simp [update_progress, hph, hi]
  · intro i hi
    by_cases hph : update_progress_phase ppay = "" <;> simp [update_progress, hph, hi]
  · intro hph
    simp [update_progress, hph]
  · intro hph
    simp [update_progress, hph]

/-- A JSON value as decoded by `request.get_json` in heater_backend.py.  An
object's field list carries the parsed dict's entries, so its keys are
distinct (JSON parsing keeps the last duplicate). -/
inductive JVal where
  | jnull : JVal
  | jb (b : Bool) : JVal
  | js (s : String) : JVal
  | jn (n : ℤ) : JVal
  | jarr (vs : List JVal) : JVal
  | jobj (fs : List (String × JVal)) : JVal

/-- What `api_command` does with a request body before any network or
environment access: reject with 400, or hand a forward payload to the Azure
relay step. -/
inductive CommandResult where
  | badRequest (msg : String) : CommandResult
  | relay (payload : List (String × JVal)) : CommandResult

/-- heater_backend.py `api_command`, lines 163-187, up to the relay call:
`get_json(silent=True)` yields `none` for an unparseable body, otherwise the
decoded JSON value. -/
def api_command (body : Option JVal) : CommandResult :=
  match body with
  | some (JVal.jobj fs) =>
    match fs.lookup "type" with
    | some (JVal.js t) =>
      if pyStrip t = "" then
        .badRequest "Field 'type' must be a non-empty string"
      else
        match fs.lookup "value" with
        | some v => .relay [("type", JVal.js (pyStrip t)), ("value", v)]
        | none => .badRequest "Field 'value' is required"
    | _ => .badRequest "Field 'type' must be a non-empty string"
  | _ => .badRequest "Expected a JSON object body"

/-- Claim C9: `api_command` answers 400 without contacting the backend iff
the body is not a JSON object, its `type` field is not a string that is
non-empty after stripping, or the `value` key is absent; otherwise the
forwarded payload is exactly the stripped `type` and the untouched `value`,
every other body key discarded. -/
theorem claim_C9 (body : Option JVal) :
    ((∃ msg, api_command body = CommandResult.badRequest msg)
      ↔ ((∀ fs, body ≠ some (JVal.jobj fs))
          ∨ (∃ fs, body = some (JVal.jobj fs)
              ∧ ((¬∃ t, fs.lookup "type" = some (JVal.js t) ∧ pyStrip t ≠ "")
                  ∨ fs.lookup "value" = none))))
  ∧ (∀ fp, api_command body = CommandResult.relay fp →
      ∃ fs t v, body = some (JVal.jobj fs)
        ∧ fs.lookup "type" = some (JVal.js t) ∧ pyStrip t ≠ ""
        ∧ fs.lookup "value" = some v
        ∧ fp = [("type", JVal.js (pyStrip t)), ("value", v)]) := by
  match body with
  | none =>
    exact ⟨⟨fun _ => Or.inl (fun fs h => by cases h), fun _ => ⟨_, rfl⟩⟩, fun fp h => by cases h⟩
  | some JVal.jnull =>
    exact ⟨⟨fun _ => Or.inl (fun fs h => by cases h), fun _ => ⟨_, rfl⟩⟩, fun fp h => by cases h⟩
  | some (JVal.jb b) =>
    exact ⟨⟨fun _ => Or.inl (fun fs h => by cases h), fun _ => ⟨_, rfl⟩⟩, fun fp h => by cases h⟩
  | some (JVal.js s) =>
    exact ⟨⟨fun _ => Or.inl (fun fs h => by cases h), fun _ => ⟨_, rfl⟩⟩, fun fp h => by cases h⟩
  | some (JVal.jn n) =>
    exact ⟨⟨fun _ => Or.inl (fun fs h => by cases h), fun _ => ⟨_, rfl⟩⟩, fun fp h => by cases h⟩
  | some (JVal.jarr vs) =>
    exact ⟨⟨fun _ => Or.inl (fun fs h => by cases h), fun _ => ⟨_, rfl⟩⟩, fun fp h => by cases h⟩
  | some (JVal.jobj fs) =>
    constructor
    · constructor
      · intro ⟨msg, hmsg⟩
        right
        refine ⟨fs, rfl, ?_⟩
        by_cases hval : fs.lookup "value" = none
        · exact Or.inr hval
        · left
          rintro ⟨t, ht, hne⟩
          obtain ⟨v, hv⟩ := Option.ne_none_iff_exists'.mp hval
          have hrel : api_command (some (JVal.jobj fs))
              = CommandResult.relay [("type", JVal.js (pyStrip t)), ("value", v)] := by
            simp [api_command, ht, hne, hv]
          rw [hrel] at hmsg
          cases hmsg
      · rintro (habs | ⟨fs2, hfs2, hbad⟩)
        · exact absurd rfl (habs fs)
        · rw [Option.some.injEq, JVal.jobj.injEq] at hfs2
          subst hfs2
          rcases hbad with hbad | hval
          · cases hty : fs.lookup "type" with
            | none =>
              exact ⟨"Field 'type' must be a non-empty string", by simp [api_command, hty]⟩
            | some tv =>
              match tv with
              | JVal.jnull =>
                exact ⟨"Field 'type' must be a non-empty string", by simp [api_command, hty]⟩
              | JVal.jb _ =>
                exact ⟨"Field 'type' must be a non-empty string", by simp [api_command, hty]⟩
              | JVal.jn _ =>
                exact ⟨"Field 'type' must be a non-empty string", by simp [api_command, hty]⟩
              | JVal.jarr _ =>
                exact ⟨"Field 'type' must be a non-empty string", by simp [api_command, hty]⟩
              | JVal.jobj _ =>
                exact ⟨"Field 'type' must be a non-empty string", by simp [api_command, hty]⟩
              | JVal.js t =>
                have hst : pyStrip t = "" := by
                  by_contra hne
                  exact hbad ⟨t, hty, hne⟩
                exact ⟨"Field 'type' must be a non-empty string",
                  by simp [api_command, hty, hst]⟩
          · cases hty : fs.lookup "type" with
            | none =>
              exact ⟨"Field 'type' must be a non-empty string", by simp [api_command, hty]⟩
            | some tv =>
              match tv with
              | JVal.jnull =>
                exact ⟨"Field 'type' must be a non-empty string", by simp [api_command, hty]⟩
              | JVal.jb _ =>
                exact ⟨"Field 'type' must be a non-empty string", by simp [api_command, hty]⟩
              | JVal.jn _ =>
                exact ⟨"Field 'type' must be a non-empty string", by simp [api_command, hty]⟩
              | JVal.jarr _ =>
                exact ⟨"Field 'type' must be a non-empty string", by simp [api_command, hty]⟩
              | JVal.jobj _ =>
                exact ⟨"Field 'type' must be a non-empty string", by simp [api_command, hty]⟩
              | JVal.js t =>
                by_cases hst : pyStrip t = ""
                · exact ⟨"Field 'type' must be a non-empty string",
                    by simp [api_command, hty, hst]⟩
                · exact ⟨"Field 'value' is required",
                    by simp [api_command, hty, hst, hval]⟩
    · intro fp hfp
      simp only [api_command] at hfp
      split at hfp
      · rename_i t hty
        split at hfp
        · cases hfp
        · rename_i hst
          split at hfp
          · rename_i v hv
            rw [CommandResult.relay.injEq] at hfp
            subst hfp
            exact ⟨fs, t, v, rfl, hty, hst, hv, rfl⟩
          · cases hfp
      · cases hfp

/-- heater_backend.py `cors_origin_for_request`, with the configured
`CORS_ALLOWED_ORIGINS` set and the request's Origin header (absent: `none`)
as arguments.  A present-but-empty Origin is falsy like an absent one. -/
def cors_origin_for_request (allowed : List String) (origin : Option String) : Option String :=
  match origin with
  | none => none
  | some o =>
    if o = "" then none
    else if "*" ∈ allowed then some "*"
    else if o ∈ allowed then some o
    else none

/-- The response headers `add_api_cors_headers` touches (Flask responses
start without them, so each is an `Option`). -/
structure ResponseHeaders where
  allow_origin : Option String
  vary : Option String
  allow_methods : Option String
  allow_headers : Option String
  max_age : Option String
deriving DecidableEq, Repr

/-- heater_backend.py `add_api_cors_headers`. -/
def add_api_cors_headers (allowed : List String) (path : String) (origin : Option String)
    (response : ResponseHeaders) : ResponseHeaders :=
  if !pyStartsWith path "/api/" then response
  else
    let r1 :=
      match cors_origin_for_request allowed origin with
      | some o =>
        if o ≠ "*" then { response with allow_origin := some o, vary := some "Origin" }
        else { response with allow_origin := some o }
      | none => response
    { r1 with
        allow_methods := some "GET, POST, OPTIONS",
        allow_headers := some "Content-Type, Authorization",
        max_age := some "600" }

/-- Claim C10: on an `/api/` path of a response that does not already carry
the header, Access-Control-Allow-Origin is `"*"` only when `"*"` is
allowlisted, is a concrete origin only when it is the request's allowlisted
Origin, stays absent when the Origin header is absent or neither it nor the
wildcard is allowlisted — so the header never names an origin outside
`CORS_ALLOWED_ORIGINS`. -/
theorem claim_C10 (allowed : List String) (path : String) (origin : Option String)
    (response : ResponseHeaders) (hpath : pyStartsWith path "/api/" = true)
    (hro : response.allow_origin = none) :
    ((add_api_cors_headers allowed path origin response).allow_origin = some "*"
      → "*" ∈ allowed)
  ∧ (∀ v, (add_api_cors_headers allowed path origin response).allow_origin = some v
      → v ≠ "*" → origin = some v ∧ v ∈ allowed)
  ∧ (origin = none
      → (add_api_cors_headers allowed path origin response).allow_origin = none)
  ∧ (∀ o, origin = some o → o ∉ allowed → "*" ∉ allowed
      → (add_api_cors_headers allowed path origin response).allow_origin = none)
  ∧ (∀ v, (add_api_cors_headers allowed path origin response).allow_origin = some v
      → v ∈ allowed) := by
  have hout : (add_api_cors_headers allowed path origin response).allow_origin
      = match cors_origin_for_request allowed origin with
        | some o => some o
        | none => response.allow_origin := by
    simp only [add_api_cors_headers, hpath, Bool.not_true, Bool.false_eq_true, if_false]
    cases hc : cors_origin_for_request allowed origin with
    | none => simp
    | some o =>
      by_cases ho : o = "*" <;> simp [ho]
  refine ⟨?_, ?_, ?_, ?_, ?_⟩
  · intro h
    rw [hout] at h
    cases hc : cors_origin_for_request allowed origin with
    | none => rw [hc, hro] at h; cases h
    | some o =>
      rw [hc] at h
      rw [Option.some.injEq] at h
      subst h
      match origin, hc with
      | some o2, hc =>
        simp only [cors_origin_for_request] at hc
        split at hc
        · cases hc
        · split at hc
          · rename_i hw
            exact hw
          · split at hc
            · rename_i hmem
              rw [Option.some.injEq] at hc
              rw [hc] at hmem
              exact hmem
            · cases hc
  · intro v h hne
    rw [hout] at h
    cases hc : cors_origin_for_request allowed origin with
    | none => rw [hc, hro] at h; cases h
    | some o =>
      rw [hc] at h
      rw [Option.some.injEq] at h
      subst h
      match origin, hc with
      | none, hc => cases hc
      | some o2, hc =>
        simp only [cors_origin_for_request] at hc
        split at hc
        · cases hc
        · split at hc
          · rw [Option.some.injEq] at hc
            exact absurd hc.symm hne
          · split at hc
            · rename_i hmem
              rw [Option.some.injEq] at hc
              subst hc
              exact ⟨rfl, hmem⟩
            · cases hc
  · intro h
    subst h
    rw [hout]
    simp [cors_origin_for_request, hro]
  · intro o h hnm hnw
    subst h
    rw [hout]
    simp only [cors_origin_for_request]
    by_cases he : o = "" <;> simp [he, hnm, hnw, hro]
  · intro v h
    rw [hout] at h
    cases hc : cors_origin_for_request allowed origin with
    | none => rw [hc, hro] at h; cases h
    | some o =>
      rw [hc] at h
      rw [Option.some.injEq] at h
      subst h
      match origin, hc with
      | none, hc => cases hc
      | some o2, hc =>
        simp only [cors_origin_for_request] at hc
        split at hc
        · cases hc
        · split at hc
          · rename_i hw
            rw [Option.some.injEq] at hc
            rw [hc] at hw
            exact hw
          · split at hc
            · rename_i hmem
              rw [Option.some.injEq] at hc
              rw [hc] at hmem
              exact hmem
            · cases hc

/-- Witness for C10: allowlist of one origin, a request from a different
origin on an `/api/` path, a response without the header. -/
theorem claim_C10_witness :
    ((add_api_cors_headers ["http://localhost:3000"] "/api/telemetry" (some "http://evil.test")
        ⟨none, none, none, none, none⟩).allow_origin = some "*"
      → "*" ∈ ["http://localhost:3000"])
  ∧ (∀ v, (add_api_cors_headers ["http://localhost:3000"] "/api/telemetry"
        (some "http://evil.test") ⟨none, none, none, none, none⟩).allow_origin = some v
      → v ≠ "*" → (some "http://evil.test" : Option String) = some v
          ∧ v ∈ ["http://localhost:3000"])
  ∧ ((some "http://evil.test" : Option String) = none
      → (add_api_cors_headers ["http://localhost:3000"] "/api/telemetry"
          (some "http://evil.test") ⟨none, none, none, none, none⟩).allow_origin = none)
  ∧ (∀ o, (some "http://evil.test" : Option String) = some o
      → o ∉ ["http://localhost:3000"] → "*" ∉ ["http://localhost:3000"]
      → (add_api_cors_headers ["http://localhost:3000"] "/api/telemetry"
          (some "http://evil.test") ⟨none, none, none, none, none⟩).allow_origin = none)
  ∧ (∀ v, (add_api_cors_headers ["http://localhost:3000"] "/api/telemetry"
        (some "http://evil.test") ⟨none, none, none, none, none⟩).allow_origin = some v
      → v ∈ ["http://localhost:3000"]) :=
  claim_C10 ["http://localhost:3000"] "/api/telemetry" (some "http://evil.test")
    ⟨none, none, none, none, none⟩ (by decide) (by decide)
